import Mathlib

/-!
# Verification of the newsbot retrieval / caching core

Shallow embedding of the repository's retrieval engine (`lib/vector-store`,
concatenated into `src/lib/redis.ts`), the cache / session layer
(`src/lib/redis.ts`) and the embedding provider (`src/lib/embeddings.ts`).

JavaScript floating-point numbers are modelled as real numbers; `Date`
values are modelled by their numeric timestamp in milliseconds; strings are
modelled as `List Char` (JS strings are sequences of UTF-16 units; all the
concrete inputs used below are ASCII, where the two notions coincide).
-/

namespace NewsBot

/-- Sum of squares of a list of reals: models
`vec.reduce((sum, a) => sum + a * a, 0)` from `cosineSimilarity`. -/
noncomputable def sumsq (l : List ℝ) : ℝ :=
  (l.map fun a => a * a).sum

/-- Dot product of two equal-length vectors: models
`vecA.reduce((sum, a, i) => sum + a * vecB[i], 0)` (only ever evaluated after
the dimension guard, i.e. on equal-length inputs, where the indexed reduce is
exactly the pairwise product sum). -/
noncomputable def dotList (a b : List ℝ) : ℝ :=
  (List.zipWith (fun x y => x * y) a b).sum

theorem sumsq_nil : sumsq [] = 0 := by simp [sumsq]

theorem sumsq_cons (x : ℝ) (l : List ℝ) : sumsq (x :: l) = x * x + sumsq l := by
  simp [sumsq]

theorem sumsq_nonneg (l : List ℝ) : 0 ≤ sumsq l := by
  induction l with
  | nil => simp [sumsq]
  | cons x xs ih =>
    rw [sumsq_cons]
    nlinarith [mul_self_nonneg x]

theorem dotList_nil_left (b : List ℝ) : dotList [] b = 0 := by simp [dotList]

theorem dotList_nil_right (a : List ℝ) : dotList a [] = 0 := by
  cases a <;> simp [dotList]

theorem dotList_cons (x y : ℝ) (a b : List ℝ) :
    dotList (x :: a) (y :: b) = x * y + dotList a b := by
  simp [dotList]

/-- Cauchy–Schwarz for list dot products, squared form, by induction. -/
theorem dotList_sq_le (a : List ℝ) : ∀ b : List ℝ,
    (dotList a b) ^ 2 ≤ sumsq a * sumsq b := by
  induction a with
  | nil =>
    intro b
    simp [dotList_nil_left, sumsq_nil]
  | cons x xs ih =>
    intro b
    cases b with
    | nil =>
      simp only [dotList_nil_right, sumsq_nil, mul_zero]
      simp
    | cons y ys =>
      have hA := sumsq_nonneg xs
      have hB := sumsq_nonneg ys
      have hih := ih ys
      rw [dotList_cons, sumsq_cons, sumsq_cons]
      have hu2 : (2 * x * y * dotList xs ys) ^ 2 ≤
          (x * x * sumsq ys + sumsq xs * (y * y)) ^ 2 := by
        nlinarith [sq_nonneg (x * x * sumsq ys - sumsq xs * (y * y)),
          mul_le_mul_of_nonneg_left hih (sq_nonneg (2 * x * y))]
      have hv : 0 ≤ x * x * sumsq ys + sumsq xs * (y * y) := by
        have := mul_self_nonneg x
        have := mul_self_nonneg y
        nlinarith
      have h1 : 2 * x * y * dotList xs ys ≤ x * x * sumsq ys + sumsq xs * (y * y) :=
        le_of_sq_le_sq hu2 hv
      nlinarith [h1, hih]

/-- `cosineSimilarity` from the vector store:

```js
if (vecA.length !== vecB.length) { return 0 }
const dotProduct = vecA.reduce((sum, a, i) => sum + a * vecB[i], 0)
const magnitudeA = Math.sqrt(vecA.reduce((sum, a) => sum + a * a, 0))
const magnitudeB = Math.sqrt(vecB.reduce((sum, b) => sum + b * b, 0))
if (magnitudeA === 0 || magnitudeB === 0) { return 0 }
return dotProduct / (magnitudeA * magnitudeB)
```
-/
noncomputable def cosineSimilarity (vecA vecB : List ℝ) : ℝ :=
  if vecA.length ≠ vecB.length then 0
  else
    let dotProduct := dotList vecA vecB
    let magnitudeA := Real.sqrt (sumsq vecA)
    let magnitudeB := Real.sqrt (sumsq vecB)
    if magnitudeA = 0 ∨ magnitudeB = 0 then 0
    else dotProduct / (magnitudeA * magnitudeB)

theorem dotList_self (a : List ℝ) : dotList a a = sumsq a := by
  induction a with
  | nil => simp [dotList_nil_left, sumsq_nil]
  | cons x xs ih => rw [dotList_cons, sumsq_cons, ih]

/-! ## JavaScript string primitives

`text.toLowerCase()`, `text.split(/\s+/)` and `String.prototype.includes`,
on `List Char`. -/

/-- `text.toLowerCase()` (ASCII scope, which covers every concrete input used
below). -/
def toLowerList (s : List Char) : List Char :=
  s.map Char.toLower

/-- Worker for `split(/\s+/)`. The Bool argument records whether we are
currently inside a whitespace run (whose token has already been emitted).
A maximal whitespace run closes the current token; the split keeps empty
fields only at the two ends, exactly as the JS regex split does
(`"".split` gives `[""]`, `" a ".split` gives `["", "a", ""]`). -/
def splitWsGo : List Char → List Char → Bool → List (List Char)
  | [], acc, false => [acc.reverse]
  | [], _, true => [[]]
  | c :: cs, acc, false =>
    if c.isWhitespace then acc.reverse :: splitWsGo cs [] true
    else splitWsGo cs (c :: acc) false
  | c :: cs, acc, true =>
    if c.isWhitespace then splitWsGo cs acc true
    else splitWsGo cs [c] false

/-- `text.split(/\s+/)`. -/
def splitWs (s : List Char) : List (List Char) :=
  splitWsGo s [] false

/-- `needle` occurs at the start of `hay`. -/
def leadsWith : List Char → List Char → Bool
  | [], _ => true
  | _ :: _, [] => false
  | p :: ps, x :: xs => p == x && leadsWith ps xs

/-- `hay.includes(needle)`: `needle` occurs contiguously somewhere in `hay`. -/
def containsSub (needle : List Char) : List Char → Bool
  | [] => needle.isEmpty
  | x :: xs => leadsWith needle (x :: xs) || containsSub needle xs

/-! ## Data model of the vector store -/

/-- Chunk metadata. `pubDate` is the `Date`-parsed publish timestamp in
milliseconds (the JS code stores the raw string and parses it with
`new Date(...)` at scoring time; the parse is modelled by its numeric
result). -/
structure ChunkMetadata where
  title : List Char
  source : List Char
  link : List Char
  pubDate : ℝ
  chunkIndex : ℕ

/-- An embedded chunk of the persisted corpus. -/
structure EmbeddedChunk where
  id : List Char
  text : List Char
  embedding : List ℝ
  metadata : ChunkMetadata

/-- A per-query search result: the chunk plus its similarity and blended
relevance score. -/
structure SearchResult extends EmbeddedChunk where
  similarity : ℝ
  relevanceScore : ℝ

/-- `calculateRelevanceScore(chunk, query, similarity)`:

```js
let score = similarity * 0.7
const daysDiff = (now.getTime() - pubDate.getTime()) / (1000 * 60 * 60 * 24)
const recencyScore = Math.max(0, 1 - daysDiff / 30)
score += recencyScore * 0.2
const queryWords = query.toLowerCase().split(/\s+/)
const titleWords = chunk.metadata.title.toLowerCase().split(/\s+/)
const titleMatches = queryWords.filter((word) =>
  titleWords.some((titleWord) => titleWord.includes(word)))
const titleScore = titleMatches.length / queryWords.length
score += titleScore * 0.1
return Math.min(score, 1)
```

`now` (`new Date()` inside the function) is passed explicitly, in
milliseconds. -/
noncomputable def calculateRelevanceScore (chunk : EmbeddedChunk) (query : List Char)
    (similarity : ℝ) (now : ℝ) : ℝ :=
  let score := similarity * 0.7
  let daysDiff := (now - chunk.metadata.pubDate) / (1000 * 60 * 60 * 24)
  let recencyScore := max 0 (1 - daysDiff / 30)
  let score1 := score + recencyScore * 0.2
  let queryWords := splitWs (toLowerList query)
  let titleWords := splitWs (toLowerList chunk.metadata.title)
  let titleMatches := queryWords.filter fun word =>
    titleWords.any fun titleWord => containsSub word titleWord
  let titleScore := (titleMatches.length : ℝ) / (queryWords.length : ℝ)
  let score2 := score1 + titleScore * 0.1
  min score2 1

/-- A concrete stale chunk: title `"qqq"`, published at timestamp 0. -/
def chunkOld : EmbeddedChunk :=
  { id := [], text := [], embedding := [],
    metadata := { title := ['q', 'q', 'q'], source := [], link := [],
                  pubDate := 0, chunkIndex := 0 } }

/-- C1 fails on the code: with similarity `-1`, a 40-day-old article
(`now = 3456000000 ms`, publish timestamp 0, so the recency term is 0) and a
query `"zzz"` with no title overlap, `calculateRelevanceScore` returns
`-0.7 < 0`. The code caps the score above at 1 (`Math.min(score, 1)`) but
never clamps it below at 0. -/
theorem claim_C1_counterexample :
    calculateRelevanceScore chunkOld ['z', 'z', 'z'] (-1) 3456000000 < 0 := by
  have hq : splitWs (toLowerList ['z', 'z', 'z']) = [['z', 'z', 'z']] := by decide
  have ht : splitWs (toLowerList ['q', 'q', 'q']) = [['q', 'q', 'q']] := by decide
  have hm : containsSub ['z', 'z', 'z'] ['q', 'q', 'q'] = false := by decide
  simp only [calculateRelevanceScore, chunkOld, hq, ht]
  simp only [List.filter, List.any, hm, Bool.or_false, List.any_nil]
  have hmax : max (0:ℝ) (1 - (3456000000 - 0) / (1000 * 60 * 60 * 24) / 30) = 0 := by
    rw [max_eq_left]; norm_num
  rw [hmax]
  norm_num [min_def]

/-- C1 amended: the relevance score is capped above at 1 but not clamped below
at 0; it always lies between `min (similarity * 0.7) 1` and 1 (the recency and
title-overlap contributions are nonnegative), so it is nonnegative whenever the
similarity is, but becomes negative (as low as `0.7 · similarity`) for
sufficiently negative similarity. -/
theorem claim_C1_amended (chunk : EmbeddedChunk) (query : List Char)
    (similarity now : ℝ) :
    calculateRelevanceScore chunk query similarity now ≤ 1 ∧
    min (similarity * 0.7) 1 ≤ calculateRelevanceScore chunk query similarity now := by
  simp only [calculateRelevanceScore]
  refine ⟨min_le_right _ _, min_le_min ?_ le_rfl⟩
  have hr : (0:ℝ) ≤ max 0 (1 - (now - chunk.metadata.pubDate) /
      (1000 * 60 * 60 * 24) / 30) := le_max_left _ _
  have htitle : (0:ℝ) ≤
      ((List.filter (fun word => (splitWs (toLowerList chunk.metadata.title)).any
          fun titleWord => containsSub word titleWord)
        (splitWs (toLowerList query))).length : ℝ) /
      ((splitWs (toLowerList query)).length : ℝ) :=
    div_nonneg (Nat.cast_nonneg _) (Nat.cast_nonneg _)
  nlinarith [hr, htitle]

/-! ## Search -/

/-- The `results` array of `searchSimilarChunks`: one `SearchResult` per loaded
chunk, with its cosine similarity against the query embedding and its blended
relevance score. -/
noncomputable def scoredResults (chunks : List EmbeddedChunk) (queryEmbedding : List ℝ)
    (query : List Char) (now : ℝ) : List SearchResult :=
  chunks.map fun chunk =>
    let similarity := cosineSimilarity queryEmbedding chunk.embedding
    let relevanceScore := calculateRelevanceScore chunk query similarity now
    { toEmbeddedChunk := chunk, similarity := similarity, relevanceScore := relevanceScore }

/-- The ordering realised by `results.sort((a, b) => b.relevanceScore - a.relevanceScore)`:
`a` may come before `b` exactly when `b.relevanceScore ≤ a.relevanceScore`
(JS `Array.prototype.sort` is stable, so a stable sort with this ordering is the
sorted array). -/
def relDesc (a b : SearchResult) : Prop :=
  b.relevanceScore ≤ a.relevanceScore

noncomputable instance : DecidableRel relDesc := fun a b =>
  inferInstanceAs (Decidable (b.relevanceScore ≤ a.relevanceScore))

instance : IsTotal SearchResult relDesc :=
  ⟨fun a b => le_total b.relevanceScore a.relevanceScore⟩

instance : IsTrans SearchResult relDesc :=
  ⟨fun _ _ _ hab hbc => le_trans hbc hab⟩

/-- `searchSimilarChunks(query, topK)`:

```js
const chunks = loadEmbeddedChunks()
if (chunks.length === 0) { return [] }
const queryEmbedding = await createEmbedding(query)
const results = chunks.map((chunk) => ({ ...chunk, similarity, relevanceScore }))
const topResults = results
  .sort((a, b) => b.relevanceScore - a.relevanceScore)
  .slice(0, topK)
  .filter((result) => result.similarity > 0.1)
return topResults
```

The loaded corpus and the awaited `createEmbedding(query)` value are passed
explicitly (the query embedding depends on the process environment: API key,
in-process cache and provider response). Note the code takes the top `topK`
of the relevance-sorted array FIRST and only then filters out results with
similarity ≤ 0.1. -/
noncomputable def searchSimilarChunks (chunks : List EmbeddedChunk) (queryEmbedding : List ℝ)
    (query : List Char) (now : ℝ) (topK : ℕ) : List SearchResult :=
  if chunks.length = 0 then []
  else
    (((scoredResults chunks queryEmbedding query now).insertionSort relDesc).take topK).filter
      fun result => decide (0.1 < result.similarity)

/-- C3: `search` returns at most `topK` results, every returned result has
similarity strictly above 0.1, the output is sorted by descending relevance
score, and an empty corpus yields an empty result list rather than an error
(the function is total). -/
theorem claim_C3 (chunks : List EmbeddedChunk) (queryEmbedding : List ℝ)
    (query : List Char) (now : ℝ) (topK : ℕ) :
    (searchSimilarChunks chunks queryEmbedding query now topK).length ≤ topK ∧
    (∀ r ∈ searchSimilarChunks chunks queryEmbedding query now topK, 0.1 < r.similarity) ∧
    (searchSimilarChunks chunks queryEmbedding query now topK).Sorted relDesc ∧
    (chunks = [] → searchSimilarChunks chunks queryEmbedding query now topK = []) := by
  by_cases h : chunks.length = 0
  · simp [searchSimilarChunks, h, List.Sorted]
  · refine ⟨?_, ?_, ?_, ?_⟩
    · calc (searchSimilarChunks chunks queryEmbedding query now topK).length
          ≤ (((scoredResults chunks queryEmbedding query now).insertionSort relDesc).take
              topK).length := by
            simp only [searchSimilarChunks, if_neg h]
            exact List.length_filter_le _ _
        _ ≤ topK := by rw [List.length_take]; exact min_le_left _ _
    · intro r hr
      simp only [searchSimilarChunks, if_neg h] at hr
      have := List.of_mem_filter hr
      exact of_decide_eq_true this
    · simp only [searchSimilarChunks, if_neg h]
      have hsorted : (((scoredResults chunks queryEmbedding query now).insertionSort
          relDesc)).Sorted relDesc :=
        List.sorted_insertionSort relDesc _
      have h1 : (((scoredResults chunks queryEmbedding query now).insertionSort
          relDesc).take topK).Sorted relDesc :=
        hsorted.sublist (List.take_sublist _ _)
      exact h1.sublist (List.filter_sublist _)
    · intro hempty
      exact absurd (by simp [hempty]) h

/-- Witness for C3 at a concrete input: the empty corpus yields `[]`. -/
theorem claim_C3_witness :
    searchSimilarChunks [] [] [] 0 5 = [] :=
  (claim_C3 [] [] [] 0 5).2.2.2 rfl

/-! ## Concrete scenario refuting C2's filter-then-top-k ordering -/

/-- The query `"apple"`. -/
def appleQ : List Char := ['a', 'p', 'p', 'l', 'e']

/-- A fresh chunk (published at `now`), title matching the query, but with an
embedding orthogonal to the query embedding: similarity 0, relevance 0.3. -/
def chunkRecent : EmbeddedChunk :=
  { id := [], text := [], embedding := [0, 1],
    metadata := { title := appleQ, source := [], link := [],
                  pubDate := 0, chunkIndex := 0 } }

/-- A 40-day-old chunk without title overlap but with similarity
`7/25 = 0.28 > 0.1`: relevance `0.196`. -/
def chunkStale : EmbeddedChunk :=
  { id := [], text := [], embedding := [7, 24],
    metadata := { title := ['z', 'z', 'z'], source := [], link := [],
                  pubDate := -3456000000, chunkIndex := 0 } }

theorem sqrt625 : Real.sqrt 625 = 25 := by
  rw [show (625 : ℝ) = 25 ^ 2 by norm_num, Real.sqrt_sq (by norm_num : (0:ℝ) ≤ 25)]

theorem simRecent : cosineSimilarity [(1:ℝ), 0] chunkRecent.embedding = 0 := by
  norm_num [cosineSimilarity, dotList, sumsq, chunkRecent, Real.sqrt_one]

theorem simStale : cosineSimilarity [(1:ℝ), 0] chunkStale.embedding = 7 / 25 := by
  norm_num [cosineSimilarity, dotList, sumsq, chunkStale, Real.sqrt_one, sqrt625]

theorem relRecent : calculateRelevanceScore chunkRecent appleQ 0 0 = 3 / 10 := by
  have hq : splitWs (toLowerList appleQ) = [appleQ] := by decide
  have hc : containsSub appleQ appleQ = true := by decide
  simp only [calculateRelevanceScore, chunkRecent, hq]
  simp only [List.filter, List.any, hc, Bool.true_or, List.any_nil, Bool.or_false]
  norm_num [max_def, min_def, appleQ]

theorem relStale : calculateRelevanceScore chunkStale appleQ (7 / 25) 0 = 49 / 250 := by
  have hq : splitWs (toLowerList appleQ) = [appleQ] := by decide
  have ht : splitWs (toLowerList ['z', 'z', 'z']) = [['z', 'z', 'z']] := by decide
  have hc : containsSub appleQ ['z', 'z', 'z'] = false := by decide
  simp only [calculateRelevanceScore, chunkStale, hq, ht]
  simp only [List.filter, List.any, hc, Bool.or_false, List.any_nil]
  norm_num [max_def, min_def, appleQ]

/-- Full evaluation of the search pipeline on the two-chunk corpus with
`topK = 1`: the fresh title-matching chunk (similarity 0) wins the single
top-`k` slot on relevance, and the subsequent similarity filter then discards
it, so the search returns nothing. -/
theorem searchScenarioEval :
    searchSimilarChunks [chunkRecent, chunkStale] [1, 0] appleQ 0 1 = [] := by
  simp only [searchSimilarChunks, scoredResults, List.map_cons, List.map_nil]
  rw [if_neg (by norm_num)]
  simp only [List.insertionSort, List.orderedInsert, relDesc, simRecent, simStale,
    relRecent, relStale]
  rw [if_pos (by norm_num : (49 : ℝ) / 250 ≤ 3 / 10)]
  simp only [List.take, List.filter, simRecent]
  rw [show decide ((0.1 : ℝ) < 0) = false from decide_eq_false (by norm_num)]

/-- C2 fails on the code: the code slices the top `topK` BEFORE filtering on
similarity (`.sort(...).slice(0, topK).filter(similarity > 0.1)`), not after
as the claim states. With `topK = 1` and the two-chunk corpus above, the
search returns no results even though one chunk (`chunkStale`) has similarity
`0.28 > 0.1`: the claimed "fewer than k results only when fewer than k chunks
have similarity > 0.1" is violated at `k = 1`. -/
theorem claim_C2_counterexample :
    searchSimilarChunks [chunkRecent, chunkStale] [1, 0] appleQ 0 1 = [] ∧
    0.1 < cosineSimilarity [(1:ℝ), 0] chunkStale.embedding := by
  refine ⟨searchScenarioEval, ?_⟩
  rw [simStale]; norm_num

/-- C2 amended: `search` stable-sorts all scored chunks descending by
relevance, takes the top `topK`, and only then drops results with similarity
≤ 0.1. Consequently it can return fewer than `topK` results even when `topK`
chunks have similarity above 0.1; whenever it returns fewer than
`min topK |corpus|` results, some chunk inside the top-`topK` relevance slots
has similarity ≤ 0.1 (a low-similarity chunk consumed a slot). -/
theorem claim_C2_amended (chunks : List EmbeddedChunk) (queryEmbedding : List ℝ)
    (query : List Char) (now : ℝ) (topK : ℕ)
    (h : (searchSimilarChunks chunks queryEmbedding query now topK).length <
      min topK chunks.length) :
    ∃ r ∈ ((scoredResults chunks queryEmbedding query now).insertionSort relDesc).take topK,
      r.similarity ≤ 0.1 := by
  by_cases hz : chunks.length = 0
  · rw [hz] at h
    simp at h
  · simp only [searchSimilarChunks, if_neg hz] at h
    by_contra hc
    push_neg at hc
    rw [List.filter_eq_self.mpr fun a ha => decide_eq_true (hc a ha)] at h
    rw [List.length_take, List.length_insertionSort, scoredResults, List.length_map] at h
    exact lt_irrefl _ h

/-- Witness for the amended C2 at the concrete scenario: with `topK = 1` the
single top-relevance slot is occupied by a chunk of similarity `0 ≤ 0.1`. -/
theorem claim_C2_witness :
    ∃ r ∈ ((scoredResults [chunkRecent, chunkStale] [1, 0] appleQ 0).insertionSort
      relDesc).take 1, r.similarity ≤ 0.1 :=
  claim_C2_amended [chunkRecent, chunkStale] [1, 0] appleQ 0 1
    (by simp [searchScenarioEval])

/-! ## C4: cosine similarity bounds -/

/-- C4: `cosineSimilarity` lies in `[-1, 1]` for equal-length vectors of
nonzero magnitude, equals 1 on a nonzero vector paired with itself, and equals
0 on a dimension mismatch or when either magnitude is zero (a vector is
nonzero exactly when its magnitude `√(Σ aᵢ²)` is nonzero). The function is a
total real-valued function — every case returns one of the above values, so it
never yields NaN and never raises. -/
theorem claim_C4 (a b : List ℝ) :
    (a.length = b.length → Real.sqrt (sumsq a) ≠ 0 → Real.sqrt (sumsq b) ≠ 0 →
      -1 ≤ cosineSimilarity a b ∧ cosineSimilarity a b ≤ 1) ∧
    (Real.sqrt (sumsq a) ≠ 0 → cosineSimilarity a a = 1) ∧
    (a.length ≠ b.length → cosineSimilarity a b = 0) ∧
    (Real.sqrt (sumsq a) = 0 ∨ Real.sqrt (sumsq b) = 0 → cosineSimilarity a b = 0) := by
  refine ⟨?_, ?_, ?_, ?_⟩
  · intro hlen hma hmb
    have hpa : 0 < Real.sqrt (sumsq a) := (Real.sqrt_nonneg _).lt_of_ne (Ne.symm hma)
    have hpb : 0 < Real.sqrt (sumsq b) := (Real.sqrt_nonneg _).lt_of_ne (Ne.symm hmb)
    have hprod : 0 < Real.sqrt (sumsq a) * Real.sqrt (sumsq b) := mul_pos hpa hpb
    have hsq : (dotList a b) ^ 2 ≤ (Real.sqrt (sumsq a) * Real.sqrt (sumsq b)) ^ 2 := by
      rw [mul_pow, Real.sq_sqrt (sumsq_nonneg a), Real.sq_sqrt (sumsq_nonneg b)]
      exact dotList_sq_le a b
    have habs : |dotList a b| ≤ Real.sqrt (sumsq a) * Real.sqrt (sumsq b) :=
      abs_le_of_sq_le_sq hsq hprod.le
    rw [abs_le] at habs
    have hval : cosineSimilarity a b =
        dotList a b / (Real.sqrt (sumsq a) * Real.sqrt (sumsq b)) := by
      simp only [cosineSimilarity]
      rw [if_neg (by simp [hlen]), if_neg (by push_neg; exact ⟨hma, hmb⟩)]
    rw [hval]
    constructor
    · rw [le_div_iff₀ hprod]
      linarith [habs.1]
    · rw [div_le_one hprod]
      exact habs.2
  · intro hma
    have hsa : sumsq a ≠ 0 := by
      intro h0
      exact hma (by rw [h0, Real.sqrt_zero])
    simp only [cosineSimilarity]
    rw [if_neg (by simp), if_neg (by push_neg; exact ⟨hma, hma⟩)]
    rw [dotList_self, Real.mul_self_sqrt (sumsq_nonneg a)]
    exact div_self hsa
  · intro hlen
    simp only [cosineSimilarity]
    rw [if_pos hlen]
  · intro h
    simp only [cosineSimilarity]
    split_ifs <;> rfl

/-- Witness for C4 at concrete vectors: `[1,0]`·`[0,1]` bounds, `[1]` with
itself, a mismatched pair, and a zero vector. -/
theorem claim_C4_witness :
    (-1 ≤ cosineSimilarity [(1:ℝ), 0] [0, 1] ∧ cosineSimilarity [(1:ℝ), 0] [0, 1] ≤ 1) ∧
    cosineSimilarity [(1:ℝ)] [(1:ℝ)] = 1 ∧
    cosineSimilarity [(1:ℝ)] [1, 0] = 0 ∧
    cosineSimilarity [(0:ℝ)] [(1:ℝ)] = 0 := by
  have h1 : Real.sqrt (sumsq [(1:ℝ), 0]) ≠ 0 := by
    norm_num [sumsq, Real.sqrt_one]
  have h2 : Real.sqrt (sumsq [(0:ℝ), 1]) ≠ 0 := by
    norm_num [sumsq, Real.sqrt_one]
  have h3 : Real.sqrt (sumsq [(1:ℝ)]) ≠ 0 := by
    norm_num [sumsq, Real.sqrt_one]
  have h4 : Real.sqrt (sumsq [(0:ℝ)]) = 0 := by
    norm_num [sumsq, Real.sqrt_zero]
  exact ⟨(claim_C4 [(1:ℝ), 0] [0, 1]).1 rfl h1 h2,
    (claim_C4 [(1:ℝ)] [(1:ℝ)]).2.1 h3,
    (claim_C4 [(1:ℝ)] [1, 0]).2.2.1 (by norm_num),
    (claim_C4 [(0:ℝ)] [(1:ℝ)]).2.2.2 (Or.inl h4)⟩

/-! ## Session store -/

/-- Redis `LTRIM key -50 -1` on a list of length `n`: keeps indices
`max(n-50,0) .. n-1`, i.e. the 50 most recent entries (`Nat` subtraction
truncates, covering the short-list case). -/
def ltrimLast50 {Msg : Type} (l : List Msg) : List Msg :=
  l.drop (l.length - 50)

/-- `addMessageToSession` along its successful path: `RPUSH` the serialized
message, refresh the key's TTL to 24h (which does not change the log's
contents), then `LTRIM` to the last 50 entries. Messages are kept abstract
(the code pushes `JSON.stringify(message)` for an arbitrary `message: any`). -/
def addMessageToSession {Msg : Type} (log : List Msg) (message : Msg) : List Msg :=
  ltrimLast50 (log ++ [message])

theorem ltrimLast50_length {Msg : Type} (l : List Msg) :
    (ltrimLast50 l).length ≤ 50 := by
  simp only [ltrimLast50, List.length_drop]
  omega

theorem foldl_addMessage_le {Msg : Type} (more : List Msg) :
    ∀ start : List Msg, start.length ≤ 50 →
      (more.foldl addMessageToSession start).length ≤ 50 := by
  induction more with
  | nil => intro start h; simpa using h
  | cons m ms ih =>
    intro start _
    exact ih (addMessageToSession start m) (ltrimLast50_length _)

/-- C5: a completed `addMessageToSession` leaves at most 50 entries in the
session log, whatever the starting log was (even one longer than 50), and
hence any further sequence of appends also never leaves more than 50. -/
theorem claim_C5 {Msg : Type} (log : List Msg) (message : Msg) (more : List Msg) :
    (addMessageToSession log message).length ≤ 50 ∧
    (more.foldl addMessageToSession (addMessageToSession log message)).length ≤ 50 :=
  ⟨ltrimLast50_length _, foldl_addMessage_le more _ (ltrimLast50_length _)⟩

/-! ## Loading persisted records

Persisted records are represented by the outcome of `JSON.parse` on them:
`some r` for a well-formed record, `none` for a malformed one. -/

/-- Modelled from the observed JSON semantics of `JSON.parse` applied to the
whole persisted file: the file (an array of records) parses exactly when every
record in it is well-formed, and then yields all of them; one malformed record
makes the entire file text invalid JSON so the whole `JSON.parse` throws. -/
def parseChunkFile {α : Type} (file : List (Option α)) : Option (List α) :=
  if file.all Option.isSome then some (file.filterMap id) else none

/-- `loadEmbeddedChunks`: read `data/embedded_chunks.json` and `JSON.parse` it
as a whole; `fileData = none` models a failed `readFileSync`, and any failure
(missing file or parse error) yields the empty corpus via the `catch` branch.
There is no per-record error handling in this function. -/
def loadEmbeddedChunks {α : Type} (fileData : Option (List (Option α))) : List α :=
  match fileData with
  | none => []
  | some data =>
    match parseChunkFile data with
    | none => []
    | some chunks => chunks

/-- `getSessionHistory`'s record handling:
`history.map(item => { try JSON.parse(item) } catch { null }).filter(Boolean)`,
i.e. keep exactly the entries whose individual parse succeeded. -/
def getSessionHistory {α : Type} (history : List (Option α)) : List α :=
  history.filterMap id

/-- C6 fails on the code for the chunk corpus: `loadEmbeddedChunks` parses the
persisted file with a single whole-file `JSON.parse`, so a file holding one
well-formed record (`some 7`) and one malformed record (`none`) loads as the
empty corpus — the well-formed record is lost, unlike `getSessionHistory`,
which skips only the malformed entry. -/
theorem claim_C6_counterexample :
    loadEmbeddedChunks (some [some (7 : ℕ), none]) = [] ∧
    List.filterMap id [some (7 : ℕ), none] = [7] ∧
    getSessionHistory [some (7 : ℕ), none] = [7] := by
  refine ⟨rfl, rfl, rfl⟩

/-- C6 amended: per-record skipping holds for session messages —
`getSessionHistory` returns exactly the well-formed entries — but
`loadEmbeddedChunks` is all-or-nothing: any malformed record in the persisted
chunk file makes the whole load yield the empty corpus (never an error), and
only a fully well-formed file yields its records. -/
theorem claim_C6_amended {α : Type} (history file : List (Option α)) (x : α) :
    (x ∈ getSessionHistory history ↔ some x ∈ history) ∧
    ((∃ r ∈ file, r = none) → loadEmbeddedChunks (some file) = []) ∧
    ((∀ r ∈ file, r.isSome) → loadEmbeddedChunks (some file) = file.filterMap id) := by
  refine ⟨?_, ?_, ?_⟩
  · simp [getSessionHistory, List.mem_filterMap]
  · rintro ⟨r, hr, rfl⟩
    have hall : file.all Option.isSome = false := by
      rw [List.all_eq_false]
      exact ⟨none, hr, by simp⟩
    simp [loadEmbeddedChunks, parseChunkFile, hall]
  · intro h
    have hall : file.all Option.isSome = true :=
      List.all_eq_true.mpr fun r hr => h r hr
    simp [loadEmbeddedChunks, parseChunkFile, hall]

/-- Witness for the amended C6 at concrete inputs. -/
theorem claim_C6_witness :
    loadEmbeddedChunks (some [some (3 : ℕ), none]) = [] ∧
    loadEmbeddedChunks (some [some (3 : ℕ), some 4]) = [3, 4] := by
  refine ⟨(claim_C6_amended [] [some (3 : ℕ), none] 3).2.1 ⟨none, by decide, rfl⟩, ?_⟩
  have h := (claim_C6_amended [] [some (3 : ℕ), some 4] 3).2.2 (by decide)
  simpa using h

/-! ## Cache layer client lifecycle

Module-level mutable state of `src/lib/redis.ts` (`redisClient`,
`redisDisabled`, `redisErrorLogged`) is modelled by explicit state passing;
the process environment and the outcome of the one-off `set("healthcheck")`
liveness probe are inputs. -/

/-- The connection environment at the time of a call, plus whether the
liveness probe (`client.set("healthcheck", "ok")`) would succeed. -/
structure RedisEnv where
  kvRestApiUrl : Option (List Char)
  kvRestApiToken : Option (List Char)
  probeOk : Bool
deriving DecidableEq

/-- An initialized Upstash client handle (`new Redis({ url, token })`). -/
structure RedisClient where
  url : List Char
  token : List Char
deriving DecidableEq

/-- The module-level mutable state: `redisClient`, `redisDisabled`,
`redisErrorLogged`. `DISABLE_REDIS` unset, so the initial state is
`⟨none, false, false⟩`. -/
structure RedisState where
  redisClient : Option RedisClient
  redisDisabled : Bool
  redisErrorLogged : Bool
deriving DecidableEq

/-- Console output relevant to the claims. -/
inductive LogEvent where
  | envCheck
  | missingConfig
  | connected
  | connectionTestFailed
  | authDisableWarn
  | cachingError
deriving DecidableEq

/-- `getRedisClient()`: returns the (possibly `null`) client, the new module
state and the emitted log events.

```js
if (redisDisabled) return null
if (!redisClient) {
  console.log("... Redis environment check ...")        // envCheck
  if (!url || !token) {
    console.error("Missing Redis environment variables") // missingConfig
    return null                                          // NOTE: redisDisabled untouched
  }
  redisClient = new Redis({ url, token })
  try { await redisClient.set("healthcheck", "ok") }     // connected
  catch { redisClient = null; redisDisabled = true; return null } // connectionTestFailed
}
return redisClient
```
(The `new Redis(...)` constructor itself does not throw for string inputs, so
the outer catch path is not reachable in this model.) -/
def getRedisClient (env : RedisEnv) (s : RedisState) :
    Option RedisClient × RedisState × List LogEvent :=
  if s.redisDisabled then (none, s, [])
  else
    match s.redisClient with
    | some c => (some c, s, [])
    | none =>
      match env.kvRestApiUrl, env.kvRestApiToken with
      | some url, some token =>
        let c : RedisClient := { url := url, token := token }
        if env.probeOk then
          (some c, { s with redisClient := some c },
            [LogEvent.envCheck, LogEvent.connected])
        else
          (none,
            { redisClient := none, redisDisabled := true,
              redisErrorLogged := s.redisErrorLogged },
            [LogEvent.envCheck, LogEvent.connectionTestFailed])
      | _, _ => (none, s, [LogEvent.envCheck, LogEvent.missingConfig])

/-- Outcome of the backing `setJson` call inside `cacheSearchResults`. -/
inductive SetOutcome where
  | ok
  | authError
  | otherError
deriving DecidableEq

/-- `cacheSearchResults` error handling: an error whose message matches
`WRONGPASS`/`Unauthorized` sets `redisDisabled = true`, clears the client and
warns only if `redisErrorLogged` is still false (then sets it); other errors
are merely logged. -/
def cacheSearchResults (env : RedisEnv) (s : RedisState) (outcome : SetOutcome) :
    RedisState × List LogEvent :=
  match getRedisClient env s with
  | (none, s1, logs) => (s1, logs)
  | (some _, s1, logs) =>
    match outcome with
    | SetOutcome.ok => (s1, logs)
    | SetOutcome.authError =>
      if s1.redisErrorLogged then
        ({ s1 with redisDisabled := true, redisClient := none }, logs)
      else
        ({ s1 with redisDisabled := true, redisClient := none, redisErrorLogged := true },
          logs ++ [LogEvent.authDisableWarn])
    | SetOutcome.otherError => (s1, logs ++ [LogEvent.cachingError])

/-- Environment with no connection configuration. -/
def envMissing : RedisEnv := ⟨none, none, true⟩

/-- Environment with configuration present and a healthy backing store. -/
def envConfigured : RedisEnv := ⟨some ['u'], some ['t'], true⟩

/-- C7 fails on the code: when the configuration is missing at first use,
`getRedisClient` returns `null` but leaves `redisDisabled = false` — the layer
is NOT permanently disabled. A later call re-attempts initialization (and
succeeds once configuration is available), and a repeated call with the
configuration still missing logs the missing-configuration error again (once
per call, not exactly once). -/
theorem claim_C7_counterexample :
    getRedisClient envMissing ⟨none, false, false⟩ =
      (none, ⟨none, false, false⟩, [LogEvent.envCheck, LogEvent.missingConfig]) ∧
    (getRedisClient envConfigured
      (getRedisClient envMissing ⟨none, false, false⟩).2.1).1 =
      some { url := ['u'], token := ['t'] } ∧
    (getRedisClient envMissing
      (getRedisClient envMissing ⟨none, false, false⟩).2.1).2.2 =
      [LogEvent.envCheck, LogEvent.missingConfig] :=
  ⟨rfl, rfl, rfl⟩

/-- C7 amended: missing configuration yields a no-op result and a log on
EVERY call, leaving the state unchanged (so initialization is re-attempted and
succeeds once configuration appears). Permanent self-disabling happens only on
a failed liveness probe during initialization, or on an authorization-failure
response during caching — and only the latter is logged exactly once
(`redisErrorLogged`). Once `redisDisabled` is set, every call is a no-op. -/
theorem claim_C7_amended :
    (∀ env s, s.redisDisabled = false → s.redisClient = none →
      (env.kvRestApiUrl = none ∨ env.kvRestApiToken = none) →
      getRedisClient env s =
        (none, s, [LogEvent.envCheck, LogEvent.missingConfig])) ∧
    (∀ env s, s.redisDisabled = true → getRedisClient env s = (none, s, [])) ∧
    (∀ url token s, s.redisDisabled = false → s.redisClient = none →
      getRedisClient ⟨some url, some token, false⟩ s =
        (none, ⟨none, true, s.redisErrorLogged⟩,
          [LogEvent.envCheck, LogEvent.connectionTestFailed])) ∧
    (∀ env c b, cacheSearchResults env ⟨some c, false, b⟩ SetOutcome.authError =
      (⟨none, true, true⟩, if b then [] else [LogEvent.authDisableWarn])) := by
  refine ⟨?_, ?_, ?_, ?_⟩
  · rintro ⟨u, t, p⟩ ⟨sc, sd, se⟩ h1 h2 h3
    simp only at h1 h2
    subst h1; subst h2
    rcases h3 with rfl | rfl
    · rfl
    · rcases u with _ | u' <;> rfl
  · intro env ⟨sc, sd, se⟩ h1
    simp only at h1
    subst h1
    rfl
  · intro url token ⟨sc, sd, se⟩ h1 h2
    simp only at h1 h2
    subst h1; subst h2
    rfl
  · intro env c b
    cases b <;> rfl

/-- Witness for the amended C7 at concrete environments and states. -/
theorem claim_C7_witness :
    getRedisClient envMissing ⟨none, false, false⟩ =
      (none, ⟨none, false, false⟩, [LogEvent.envCheck, LogEvent.missingConfig]) ∧
    getRedisClient envConfigured ⟨none, true, false⟩ = (none, ⟨none, true, false⟩, []) ∧
    getRedisClient ⟨some ['u'], some ['t'], false⟩ ⟨none, false, false⟩ =
      (none, ⟨none, true, false⟩,
        [LogEvent.envCheck, LogEvent.connectionTestFailed]) ∧
    cacheSearchResults envConfigured ⟨some ⟨['u'], ['t']⟩, false, true⟩
      SetOutcome.authError = (⟨none, true, true⟩, []) := by
  refine ⟨claim_C7_amended.1 envMissing ⟨none, false, false⟩ rfl rfl (Or.inl rfl),
    claim_C7_amended.2.1 envConfigured ⟨none, true, false⟩ rfl,
    claim_C7_amended.2.2.1 ['u'] ['t'] ⟨none, false, false⟩ rfl rfl, ?_⟩
  have h := claim_C7_amended.2.2.2 envConfigured ⟨['u'], ['t']⟩ true
  simpa using h

/-! ## Embedding provider: deterministic fallback -/

/-- JS `ToInt32` (the effect of `hash & hash` / `<<` on a Number). -/
def toInt32 (n : ℤ) : ℤ :=
  (n + 2 ^ 31) % 2 ^ 32 - 2 ^ 31

/-- One step of `hashString`:
`hash = (hash << 5) - hash + char; hash = hash & hash`. `charCodeAt` is
modelled by the character's code point (identical on the BMP). -/
def hashStep (hash : ℤ) (c : Char) : ℤ :=
  toInt32 (toInt32 (hash * 2 ^ 5) - hash + c.toNat)

/-- `hashString(str)` with the final `Math.abs`. -/
def hashString (str : List Char) : ℕ :=
  (str.foldl hashStep 0).natAbs

/-- `embedding[position] += v`. -/
noncomputable def addAt (l : List ℝ) (position : ℕ) (v : ℝ) : List ℝ :=
  l.set position (l.getD position 0 + v)

/-- One word's contribution:
`for i in 0..767: embedding[(wordHash + i + wordIndex) % 768] += Math.sin(wordHash + i) * 0.1`. -/
noncomputable def addWordFeatures (l : List ℝ) (wordIndex : ℕ) (word : List Char) : List ℝ :=
  (List.range 768).foldl
    (fun acc i => addAt acc ((hashString word + i + wordIndex) % 768)
      (Real.sin ((hashString word + i : ℕ) : ℝ) * 0.1)) l

/-- The pre-normalization fallback embedding of `createDeterministicEmbedding`:
word-hash sine features over a 768-slot zero vector, then the text-length
feature into slots 0–49 and the character-diversity feature into slots 50–99
(both added in the same `for (let i = 0; i < 50; i++)` loop). -/
noncomputable def rawEmbedding (text : List Char) : List ℝ :=
  let words := splitWs (toLowerList text)
  let base := words.enum.foldl (fun acc wi => addWordFeatures acc wi.1 wi.2)
    (List.replicate 768 0)
  let textLength : ℝ := min ((text.length : ℝ) / 1000) 1
  let uniqueChars : ℝ := ((toLowerList text).dedup.length : ℝ) / 26
  (List.range 50).foldl
    (fun acc i => addAt (addAt acc i (textLength * 0.2)) (i + 50) (uniqueChars * 0.2)) base

/-- `createDeterministicEmbedding`: the raw embedding, L2-normalized:

```js
const magnitude = Math.sqrt(embedding.reduce((sum, val) => sum + val * val, 0))
return embedding.map((val) => val / magnitude)
```
(real division; real division by zero is zero). -/
noncomputable def createDeterministicEmbedding (text : List Char) : List ℝ :=
  let embedding := rawEmbedding text
  let magnitude := Real.sqrt (sumsq embedding)
  embedding.map fun val => val / magnitude

theorem addAt_length (l : List ℝ) (p : ℕ) (v : ℝ) : (addAt l p v).length = l.length :=
  List.length_set l p _

theorem foldl_length_eq {α : Type} (f : List ℝ → α → List ℝ)
    (h : ∀ l a, (f l a).length = l.length) :
    ∀ (xs : List α) (l0 : List ℝ), (List.foldl f l0 xs).length = l0.length := by
  intro xs
  induction xs with
  | nil => intro l0; rfl
  | cons x xs ih => intro l0; rw [List.foldl_cons, ih, h]

theorem addWordFeatures_length (l : List ℝ) (wordIndex : ℕ) (word : List Char) :
    (addWordFeatures l wordIndex word).length = l.length :=
  foldl_length_eq _ (fun l' _ => addAt_length l' _ _) _ l

theorem rawEmbedding_length (text : List Char) : (rawEmbedding text).length = 768 := by
  simp only [rawEmbedding]
  rw [foldl_length_eq _ (fun l' i => by rw [addAt_length, addAt_length]),
    foldl_length_eq _ (fun l' wi => addWordFeatures_length l' _ _),
    List.length_replicate]

theorem sumsq_map_div (l : List ℝ) (m : ℝ) :
    sumsq (l.map fun v => v / m) = sumsq l / (m * m) := by
  induction l with
  | nil => simp [sumsq]
  | cons x xs ih =>
    simp only [List.map_cons, sumsq_cons, ih]
    rw [div_mul_div_comm, add_div]

theorem sumsq_zero_replicate (l : List ℝ) (h : sumsq l = 0) :
    l = List.replicate l.length 0 := by
  induction l with
  | nil => rfl
  | cons x xs ih =>
    rw [sumsq_cons] at h
    have h1 : x * x = 0 := by nlinarith [mul_self_nonneg x, sumsq_nonneg xs]
    have h2 : sumsq xs = 0 := by nlinarith [mul_self_nonneg x, sumsq_nonneg xs]
    rw [List.length_cons, List.replicate_succ, mul_self_eq_zero.mp h1, ← ih h2]

/-- C8: for every input text the deterministic fallback embedding is a
768-dimensional vector, and either it is L2-normalized (its sum of squared
components is exactly 1) or the pre-normalization vector had zero magnitude,
in which case it is precisely the all-zero vector and is returned unchanged.
In the real-number model every component is a well-defined real number, so
none is NaN or infinite. -/
theorem claim_C8 (text : List Char) :
    (createDeterministicEmbedding text).length = 768 ∧
    (sumsq (createDeterministicEmbedding text) = 1 ∨
      (createDeterministicEmbedding text = rawEmbedding text ∧
        rawEmbedding text = List.replicate 768 0)) := by
  constructor
  · simp only [createDeterministicEmbedding, List.length_map]
    exact rawEmbedding_length text
  · by_cases h : sumsq (rawEmbedding text) = 0
    · right
      have hrep : rawEmbedding text = List.replicate 768 0 := by
        have h0 := sumsq_zero_replicate _ h
        rwa [rawEmbedding_length] at h0
      refine ⟨?_, hrep⟩
      simp only [createDeterministicEmbedding]
      rw [hrep, List.map_replicate, zero_div]
    · left
      simp only [createDeterministicEmbedding]
      rw [sumsq_map_div, Real.mul_self_sqrt (sumsq_nonneg _)]
      exact div_self h

/-! ## Batch embeddings -/

/-- `createBatchEmbeddings(texts)`: `jinaApiKey = none` models a missing
`JINA_API_KEY`; `providerResponse = none` models a failed or non-ok `fetch`
of the single batched provider call (the `catch` path); `some data` is the
parsed success response, whose `data.map(item => item.embedding)` is returned
unchanged. Both failure paths compute the deterministic fallback for every
text of the batch. -/
noncomputable def createBatchEmbeddings (texts : List (List Char))
    (jinaApiKey : Option (List Char)) (providerResponse : Option (List (List ℝ))) :
    List (List ℝ) :=
  match jinaApiKey with
  | none => texts.map createDeterministicEmbedding
  | some _ =>
    match providerResponse with
    | some data => data
    | none => texts.map createDeterministicEmbedding

/-- C9: whenever the provider is unconfigured or its batched call fails,
`createBatchEmbeddings` returns exactly the deterministic fallback vector of
every input text, in order — one vector per text (equal lengths), with no
partial mixing of provider and fallback vectors. -/
theorem claim_C9 (texts : List (List Char)) (jinaApiKey : Option (List Char))
    (providerResponse : Option (List (List ℝ)))
    (h : jinaApiKey = none ∨ providerResponse = none) :
    createBatchEmbeddings texts jinaApiKey providerResponse =
      texts.map createDeterministicEmbedding ∧
    (createBatchEmbeddings texts jinaApiKey providerResponse).length = texts.length := by
  have heq : createBatchEmbeddings texts jinaApiKey providerResponse =
      texts.map createDeterministicEmbedding := by
    rcases h with rfl | rfl
    · rfl
    · cases jinaApiKey <;> rfl
  exact ⟨heq, by rw [heq, List.length_map]⟩

/-- Witness for C9: a two-text batch with no API key. -/
theorem claim_C9_witness :
    createBatchEmbeddings [['a'], ['b']] none none =
      [['a'], ['b']].map createDeterministicEmbedding ∧
    (createBatchEmbeddings [['a'], ['b']] none none).length = 2 :=
  claim_C9 [['a'], ['b']] none none (Or.inl rfl)

/-! ## Single-text embedding and its cache key (C10) -/

/-- The base64 alphabet. -/
def base64Table : List Char :=
  "ABCDEFGHIJKLMNOPQRSTUVWXYZabcdefghijklmnopqrstuvwxyz0123456789+/".toList

def base64Char (n : ℕ) : Char :=
  base64Table.getD n 'A'

/-- Standard base64 of a byte sequence (the encoding produced by
`Buffer.from(text).toString("base64")`), with `=` padding. -/
def base64Encode : List ℕ → List Char
  | b1 :: b2 :: b3 :: rest =>
    let n := b1 * 65536 + b2 * 256 + b3
    base64Char (n / 262144) :: base64Char (n / 4096 % 64) ::
      base64Char (n / 64 % 64) :: base64Char (n % 64) :: base64Encode rest
  | [b1, b2] =>
    let n := b1 * 65536 + b2 * 256
    [base64Char (n / 262144), base64Char (n / 4096 % 64), base64Char (n / 64 % 64), '=']
  | [b1] =>
    let n := b1 * 65536
    [base64Char (n / 262144), base64Char (n / 4096 % 64), '=', '=']
  | [] => []

/-- UTF-8 encoding of one character (`Buffer.from` uses UTF-8). -/
def utf8EncodeChar (c : Char) : List ℕ :=
  let n := c.toNat
  if n < 128 then [n]
  else if n < 2048 then [192 + n / 64, 128 + n % 64]
  else if n < 65536 then [224 + n / 4096, 128 + n / 64 % 64, 128 + n % 64]
  else [240 + n / 262144, 128 + n / 4096 % 64, 128 + n / 64 % 64, 128 + n % 64]

/-- The UTF-8 bytes of a text (`Buffer.from(text)`). -/
def utf8Bytes (text : List Char) : List ℕ :=
  (text.map utf8EncodeChar).flatten

/-- The in-process cache key of `createEmbedding`:
`"embedding:" + Buffer.from(text).toString("base64").substring(0, 50)`. -/
def embeddingCacheKey (text : List Char) : List Char :=
  "embedding:".toList ++ (base64Encode (utf8Bytes text)).take 50

/-- `createEmbedding(text)` with its module-level `embeddingCache` passed as
explicit state (a key/value association list; `Map.set` prepends, `Map.get`
finds the entry). `jinaApiKey`/`providerResponse` play the same roles as in
`createBatchEmbeddings`; only a successful provider call stores into the
cache. Returns the embedding and the updated cache. -/
noncomputable def createEmbedding (cache : List (List Char × List ℝ)) (text : List Char)
    (jinaApiKey : Option (List Char)) (providerResponse : Option (List ℝ)) :
    List ℝ × List (List Char × List ℝ) :=
  let cacheKey := embeddingCacheKey text
  match cache.lookup cacheKey with
  | some cached => (cached, cache)
  | none =>
    match jinaApiKey with
    | none => (createDeterministicEmbedding text, cache)
    | some _ =>
      match providerResponse with
      | some embedding => (embedding, (cacheKey, embedding) :: cache)
      | none => (createDeterministicEmbedding text, cache)

/-- Base64 only looks at whole 3-byte groups for the corresponding 4 output
characters: byte streams agreeing on their first `3k` bytes produce encodings
agreeing on their first `4k` characters. -/
theorem base64Encode_take (k : ℕ) : ∀ a b : List ℕ, a.take (3 * k) = b.take (3 * k) →
    (base64Encode a).take (4 * k) = (base64Encode b).take (4 * k) := by
  induction k with
  | zero => intro a b _; simp
  | succ k ih =>
    intro a b h
    have hlen := congrArg List.length h
    simp only [List.length_take] at hlen
    rw [show 3 * (k + 1) = 3 * k + 1 + 1 + 1 by ring] at h
    rcases a with _ | ⟨x1, _ | ⟨x2, _ | ⟨x3, as⟩⟩⟩ <;>
      rcases b with _ | ⟨y1, _ | ⟨y2, _ | ⟨y3, bs⟩⟩⟩ <;>
      simp only [List.length_nil, List.length_cons] at hlen <;>
      first
      | omega
      | skip
    all_goals simp only [List.take_succ_cons, List.take_nil] at h
    · rfl
    · injection h with h1 _
      subst h1; rfl
    · injection h with h1 h
      injection h with h2 _
      subst h1; subst h2; rfl
    · injection h with h1 h
      injection h with h2 h
      injection h with h3 h
      subst h1; subst h2; subst h3
      simp only [base64Encode]
      rw [show 4 * (k + 1) = 4 * k + 1 + 1 + 1 + 1 by ring]
      simp only [List.take_succ_cons]
      rw [ih as bs h]

/-- Texts whose UTF-8 byte streams agree on their first 39 bytes (13 whole
base64 groups, hence at least the first 52 = 4·13 base64 characters) share
their embedding-cache key. -/
theorem cacheKey_of_take39 (s t : List Char)
    (h : (utf8Bytes s).take 39 = (utf8Bytes t).take 39) :
    embeddingCacheKey s = embeddingCacheKey t := by
  have h52 := base64Encode_take 13 (utf8Bytes s) (utf8Bytes t) h
  have htake : ∀ l : List Char, l.take 50 = (l.take 52).take 50 := by
    intro l
    rw [List.take_take]
    norm_num
  simp only [embeddingCacheKey]
  rw [htake (base64Encode (utf8Bytes s)), htake (base64Encode (utf8Bytes t)), h52]

/-- 51 copies of `'a'`. -/
def t51 : List Char := List.replicate 51 'a'

/-- 52 copies of `'a'`. -/
def t52 : List Char := List.replicate 52 'a'

/-- C10: the cache key (first 50 base64 characters of the text) is not
injective — any two texts sharing their first 39 UTF-8 bytes (≈37 bytes of
key-determining input) collide, e.g. 51 vs 52 copies of `'a'` — and after a
successful provider call for the first text populates the cache, a call for
the second text hits the shared key and returns the first text's vector
(`[42]`) instead of consulting the provider (whose response would have been
`[7]`), leaving the cache unchanged. -/
theorem claim_C10 :
    t51 ≠ t52 ∧
    (∀ s t : List Char, (utf8Bytes s).take 39 = (utf8Bytes t).take 39 →
      embeddingCacheKey s = embeddingCacheKey t) ∧
    embeddingCacheKey t51 = embeddingCacheKey t52 ∧
    createEmbedding ((createEmbedding [] t51 (some ['k']) (some [42])).2) t52
      (some ['k']) (some [7]) =
      ([42], (createEmbedding [] t51 (some ['k']) (some [42])).2) := by
  refine ⟨by decide, cacheKey_of_take39, cacheKey_of_take39 t51 t52 (by decide), ?_⟩
  rfl

/-- Witness for C10's universally quantified collision clause at the concrete
pair `t51`, `t52`. -/
theorem claim_C10_witness :
    embeddingCacheKey t51 = embeddingCacheKey t52 :=
  claim_C10.2.1 t51 t52 (by decide)

end NewsBot
